import Mathlib

/-! Verification of the sebas-chan LanceDB worker.

Shallow embedding of `packages/db/src/python/lancedb_worker.py`,
`packages/db/src/python/schemas.py` and `packages/db/src/python/embedding.py`,
together with proofs about the hybrid retrieval subsystem, the validation
gate, the mutation-via-rewrite manager and the RPC dispatch loop.

Numeric conventions: similarity distances and relevance scores are modelled
as rationals (the Python code uses machine floats; the scoring arithmetic is
exact min-max normalization, which we state over `ℚ`), embedding vectors for
the dimension-adjustment policy are modelled over `ℝ` because the L2 norm
uses a square root, and timestamps are modelled as integers (millisecond
counts).
-/

namespace SebasChan

/-! ## String helpers

`strContains hay needle` models Python's `needle in hay` / SQL `LIKE '%needle%'`
(case sensitive); `strContainsCI` models pandas `str.contains(q, case=False)`.
-/
def lowerStr (s : String) : String := ⟨s.toList.map Char.toLower⟩

def strContains (hay needle : String) : Bool :=
  decide (needle.toList <:+: hay.toList)

def strContainsCI (hay needle : String) : Bool :=
  strContains (lowerStr hay) (lowerStr needle)

/-- Python truthiness of an optional string parameter (`if source:` is false
for both a missing key and the empty string). -/
def optTruthy : Option String → Bool
  | none => false
  | some s => !s.isEmpty

/-! ## Pond data model (`get_pond_schema` in schemas.py) -/
/-- One row of the `pond` table.  The embedding vector is not carried here:
no claim about `search_pond` inspects it, and the store owns it. -/
structure PondRow where
  id : String
  content : String
  context : String
  source : String
  timestamp : Int
  metadata : String
deriving DecidableEq

/-- The filter parameters of `search_pond` (`filters` dict in the worker).
`limit` defaults to 20 and `offset` to 0 at the call site. -/
structure SearchParams where
  q : String
  source : Option String
  context : Option String
  dateFrom : Option Int
  dateTo : Option Int
  limit : Nat
  offset : Nat

/-- The translated where-clause of `search_pond` (step 1): source equality,
context `LIKE '%c%'`, inclusive timestamp range.  Conditions are only added
for truthy parameters, mirroring `if source:` etc. -/
def matchesWhere (p : SearchParams) (r : PondRow) : Bool :=
  (!optTruthy p.source || (r.source == p.source.getD "")) &&
  (!optTruthy p.context || strContains r.context (p.context.getD "")) &&
  (p.dateFrom.all fun t => decide (t ≤ r.timestamp)) &&
  (p.dateTo.all fun t => decide (r.timestamp ≤ t))

/-- The source-only filter used by both `except` fallbacks of `search_pond`
(`df = df[df['source'] == source]` applied only when `source` is truthy). -/
def sourceFilter (src : Option String) (rows : List PondRow) : List PondRow :=
  if optTruthy src then rows.filter (fun r => r.source == src.getD "") else rows

/-! ## Scoring (step 3 of `search_pond`) -/
/-- Pandas `df['distance'].min()` over the retrieved set (0 is never used: the
scoring code only runs on a nonempty frame). -/
def listMin : List ℚ → ℚ
  | [] => 0
  | d :: ds => ds.foldl min d

/-- Pandas `df['distance'].max()` over the retrieved set. -/
def listMax : List ℚ → ℚ
  | [] => 0
  | d :: ds => ds.foldl max d

/-- The score column computed by `search_pond` on the vector branch: inverted
min-max normalization of the distance column over the current result set,
`1.0` everywhere when all distances coincide, and an empty column for an
empty result. -/
def scores (ds : List ℚ) : List ℚ :=
  if ds.isEmpty then []
  else if listMin ds < listMax ds then
    ds.map (fun d => 1 - (d - listMin ds) / (listMax ds - listMin ds))
  else ds.map (fun _ => 1)

/-! ## Result pages (steps 4-5 of `search_pond`) -/
/-- The `{data, meta}` payload returned by `search_pond`.  Each data row
carries the optional `score` column (present on the vector branch only). -/
structure SearchResult where
  data : List (PondRow × Option ℚ)
  total : Nat
  limit : Nat
  offset : Nat
  hasMore : Bool
deriving DecidableEq

/-- Slicing and metadata assembly shared by every `search_pond` exit:
`total_count = len(df)`, `df.iloc[offset:offset+limit]`,
`hasMore = offset + limit < total_count`. -/
def mkPage (limit offset : Nat) (rows : List (PondRow × Option ℚ)) : SearchResult :=
  { data := (rows.drop offset).take limit
    total := rows.length
    limit := limit
    offset := offset
    hasMore := decide (offset + limit < rows.length) }

/-- Attach the score column to the retrieved rows (vector branch), pairing
each row with the score computed from the distance column. -/
def attachScores (rds : List (PondRow × ℚ)) : List (PondRow × Option ℚ) :=
  List.zipWith (fun rd s => (rd.1, some s)) rds (scores (rds.map Prod.snd))

/-- Descending-timestamp order used by the text branch
(`df.sort_values('timestamp', ascending=False)`). -/
def tsDescRow (a b : PondRow) : Prop := b.timestamp ≤ a.timestamp

instance : DecidableRel tsDescRow := fun a b =>
  inferInstanceAs (Decidable (b.timestamp ≤ a.timestamp))

instance : IsTotal PondRow tsDescRow := ⟨fun a b => le_total b.timestamp a.timestamp⟩

instance : IsTrans PondRow tsDescRow := ⟨fun _ _ _ hab hbc => le_trans hbc hab⟩

/-- The same order lifted to rows paired with their (absent) score column. -/
def tsDescS (a b : PondRow × Option ℚ) : Prop := b.1.timestamp ≤ a.1.timestamp

/-- Sort rows by timestamp, most recent first. -/
def sortTsDesc (rows : List PondRow) : List PondRow :=
  rows.insertionSort tsDescRow

/-- Text-branch exit of `search_pond`: sort by timestamp descending, no score
column, then paginate. -/
def finishText (limit offset : Nat) (rows : List PondRow) : SearchResult :=
  mkPage limit offset ((sortTsDesc rows).map (fun r => (r, none)))

/-- Vector-branch exit of `search_pond`: attach scores, keep the store's
similarity order (no re-sort), then paginate. -/
def finishVector (limit offset : Nat) (rds : List (PondRow × ℚ)) : SearchResult :=
  mkPage limit offset (attachScores rds)

/-- Model of `search_pond`.  External collaborators are explicit parameters:
`modelLoaded` is `embedding_model.is_loaded`; `ranked` is the store's
similarity-ordered, distance-annotated view of the table for the encoded
query (consumed by `table.search(query_vector)`, to which the worker applies
the where-clause and `limit(2000)`); `vecFails` signals an exception from the
similarity scan, and `scanFails` an exception from the plain filtered scan —
in both cases the worker falls back to `table.to_pandas()` with only the
source filter applied. -/
def searchPond (p : SearchParams) (modelLoaded : Bool) (table : List PondRow)
    (ranked : List (PondRow × ℚ)) (vecFails scanFails : Bool) : SearchResult :=
  if p.q ≠ "" ∧ modelLoaded = true then
    if vecFails then
      finishText p.limit p.offset (sourceFilter p.source table)
    else
      finishVector p.limit p.offset
        ((ranked.filter (fun rd => matchesWhere p rd.1)).take 2000)
  else
    if scanFails then
      finishText p.limit p.offset (sourceFilter p.source table)
    else
      finishText p.limit p.offset ((table.filter (matchesWhere p)).take 2000)

/-! ## C10: the 2000-row retrieval cap
-/
/-- A stub pond row used to build large concrete tables. -/
def pondStub (i : Nat) : PondRow := ⟨toString i, "", "", "", (i : Int), ""⟩

/-- A table of 2001 rows. -/
def bigTable : List PondRow := (List.range 2001).map pondStub

/-! ## C3: failure fallback of the similarity scan

`search_issues` falls back to `_text_search`, which applies the
case-insensitive title-substring mask.  `search_pond`'s own `except` block
instead falls back to `table.to_pandas()` with only the source filter — it
never applies a text-substring match.
-/
/-- One row of the `issues` table (`get_issues_schema`); the JSON-encoded
`updates`/`relations` blobs and the vector are not inspected by any claim. -/
structure IssueRow where
  id : String
  title : String
  description : String
  status : String
  labels : List String
deriving DecidableEq

/-- Model of `_text_search`: full pandas scan with a case-insensitive substring mask
on `title` when the query is nonempty (`str.contains(query, case=False)`). -/
def text_search (table : List IssueRow) (query : String) : List IssueRow :=
  if query ≠ "" then table.filter (fun r => strContainsCI r.title query) else table

/-- Model of `search_issues`: vector search when the query is nonempty and
`use_vector` holds — `sim = none` models the similarity scan raising, in
which case the worker falls back to `_text_search`; otherwise the text
search runs directly.  `sim = some rs` is the store's ranked result,
capped at `limit`. -/
def search_issues (q : String) (useVector : Bool) (sim : Option (List IssueRow))
    (table : List IssueRow) (lim : Nat) : List IssueRow :=
  if q ≠ "" ∧ useVector = true then
    match sim with
    | some rs => rs.take lim
    | none => text_search table q
  else text_search table q

/-- A pond row for the scenario-D table. -/
def c3row (n : Nat) (c : String) : PondRow := ⟨toString n, c, "", "s", (n : Int), "{}"⟩

/-- Five pond rows of which exactly two contain "report" case-insensitively. -/
def c3table : List PondRow :=
  [c3row 1 "alpha report", c3row 2 "weekly Report summary", c3row 3 "groceries",
   c3row 4 "meeting notes", c3row 5 "random"]

def c3params : SearchParams := ⟨"report", none, none, none, none, 20, 0⟩

/-! ## C4: embedding dimension adjustment (`RuriEmbedding._adjust_dimension`)

Vectors are modelled over `ℝ`; `np.linalg.norm` is the Euclidean norm
`Real.sqrt (normSq v)`.
-/
/-- Sum of squares of the components (the square of the L2 norm). -/
def normSq (v : List ℝ) : ℝ := (v.map (fun x => x * x)).sum

/-- Model of `_adjust_dimension`: pass through when the widths agree; truncate to the
first `targetDim` components and L2-renormalize (skipping the division when
the norm is zero) when the vector is too wide; zero-pad on the right when it
is too narrow. -/
noncomputable def adjust_dimension (v : List ℝ) (targetDim : Nat) : List ℝ :=
  if v.length = targetDim then v
  else if targetDim < v.length then
    let t := v.take targetDim
    let norm := Real.sqrt (normSq t)
    if 0 < norm then t.map (fun x => x / norm) else t
  else v ++ List.replicate (targetDim - v.length) (0 : ℝ)

/-! ## C7: singleton state document (`update_state` / `get_state` / `init_tables`)

The store supports only append and predicate-delete, so `update_state`
deletes every `id = 'main'` row and appends a fresh one; `init_tables`
seeds the table with a single `main` row holding empty content.
-/
/-- One row of the `state` table (`get_state_schema`). -/
structure StateRow where
  id : String
  content : String
  updated_at : Int
deriving DecidableEq

/-- The `state` table as `init_tables` leaves it on a fresh store. -/
def init_state_rows (t0 : Int) : List StateRow := [⟨"main", "", t0⟩]

/-- Model of `update_state`: `table.delete("id = 'main'")` then add the new row with a
millisecond-floored current timestamp. -/
def update_state (now : Int) (rows : List StateRow) (content : String) :
    List StateRow :=
  (rows.filter (fun r => !(r.id == "main"))) ++ [⟨"main", content, now⟩]

/-- Model of `get_state`: first row matching `id = 'main'` (limit 1), empty content
when absent. -/
def get_state (rows : List StateRow) : String :=
  match rows.find? (fun r => r.id == "main") with
  | some r => r.content
  | none => ""

/-! ## C9: RPC dispatch (`handle_request` / `run`)

`exec` abstracts the per-method handler bodies (which touch the store and
may raise); the dispatch wraps any raised exception — including the
`ValueError` raised for an unknown method — into an error envelope with the
fixed code `-32603`.  A `none` line models a `json.JSONDecodeError` on
`json.loads`.
-/
/-- A parsed request envelope (`{method, params, id}`; params are consumed
only by the individual handlers, which `exec` abstracts). -/
structure Request where
  method : String
  id : Option Int
deriving DecidableEq

/-- A response envelope: `{result, id}` or `{error: {code, message}, id}`. -/
inductive Response where
  | ok (id : Option Int)
  | err (code : Int) (msg : String) (id : Option Int)
deriving DecidableEq

/-- The method names dispatched by `handle_request`. -/
def knownMethods : List String :=
  ["ping", "initModel", "addIssue", "getIssue", "searchIssues", "getState",
   "updateState", "addPondEntry", "getPondEntry", "searchPond", "getPondSources",
   "addSchedule", "getSchedule", "updateSchedule", "searchSchedules",
   "clearDatabase"]

/-- Model of `handle_request`: dispatch on the method name; an unknown method raises
`ValueError("Unknown method: ...")`, which the surrounding `except` turns
into an error envelope with code `-32603` and `str(e)` as the message. -/
def handle_request (exec : String → Except String Unit) (r : Request) : Response :=
  if r.method ∈ knownMethods then
    match exec r.method with
    | Except.ok _ => Response.ok r.id
    | Except.error e => Response.err (-32603) e r.id
  else Response.err (-32603) ("Unknown method: " ++ r.method) r.id

/-- The `run` loop: read lines until EOF; a line that fails JSON parsing
(`none`) is skipped with no response; otherwise the request is handled and
one response is emitted. -/
def runLoop (exec : String → Except String Unit) : List (Option Request) → List Response
  | [] => []
  | line :: rest =>
    match line with
    | none => runLoop exec rest
    | some r => handle_request exec r :: runLoop exec rest

/-! ## Python dicts (for `validate_issue`, `add_issue`, `add_schedule`,
`update_schedule`)

A dict is a key-ordered association list with at most one binding per key in
practice; `dictSet` models `d[k] = v` (replace in place, else append) and
`dictMerge` the merge loop `for key, value in updates.items(): existing[key]
= value`.
-/
/-- A JSON/Python value, as far as the validation gates inspect one. -/
inductive PyVal where
  | strv (s : String)
  | intv (n : Int)
  | listv (xs : List PyVal)

abbrev Dict := List (String × PyVal)

def dictLookup (d : Dict) (k : String) : Option PyVal :=
  (d.find? (fun kv => kv.1 == k)).map Prod.snd

/-- Membership test `k in d`. -/
def dictHas (d : Dict) (k : String) : Bool := (dictLookup d k).isSome

/-- Comparison `d.get(k) == t` for a string constant `t` (false on missing keys and on
non-string values). -/
def pyValEqStr : Option PyVal → String → Bool
  | some (PyVal.strv s), t => s == t
  | _, _ => false

def isStrVal : Option PyVal → Bool
  | some (PyVal.strv _) => true
  | _ => false

def isListVal : Option PyVal → Bool
  | some (PyVal.listv _) => true
  | _ => false

/-- Python `', '.join(xs)`. -/
def joinComma : List String → String
  | [] => ""
  | [x] => x
  | x :: xs => x ++ ", " ++ joinComma xs

/-- Assignment `d[k] = v`: replace the binding in place when the key exists, else
append it. -/
def dictSet (d : Dict) (k : String) (v : PyVal) : Dict :=
  if dictHas d k then d.map (fun kv => if kv.1 == k then (k, v) else kv)
  else d ++ [(k, v)]

/-- Apply every binding of `updates` over `d`. -/
def dictMerge (d : Dict) (updates : Dict) : Dict :=
  updates.foldl (fun acc kv => dictSet acc kv.1 kv.2) d

def exceptOk {ε α : Type} : Except ε α → Bool
  | Except.ok _ => true
  | Except.error _ => false

/-! ### `validate_issue` and `add_issue` -/
def issueRequiredFields : List String :=
  ["id", "title", "description", "status", "labels", "updates", "relations",
   "source_input_ids"]

/-- The list comprehension collecting every absent required field. -/
def missingIssueFields (d : Dict) : List String :=
  issueRequiredFields.filter (fun f => !dictHas d f)

/-- Model of `validate_issue`: required-field presence (reporting the whole missing
list), string type checks on `title`/`description`, the `status` enum check,
and the list type check on `labels`. -/
def validate_issue (d : Dict) : Except String Unit :=
  if missingIssueFields d ≠ [] then
    Except.error ("Missing required fields: " ++ joinComma (missingIssueFields d))
  else if !isStrVal (dictLookup d "title") then
    Except.error "Field 'title' must be a string"
  else if !isStrVal (dictLookup d "description") then
    Except.error "Field 'description' must be a string"
  else if !(pyValEqStr (dictLookup d "status") "open" ||
      pyValEqStr (dictLookup d "status") "closed") then
    Except.error "Field 'status' must be 'open' or 'closed'"
  else if !isListVal (dictLookup d "labels") then
    Except.error "Field 'labels' must be a list"
  else Except.ok ()

/-- Model of `add_issue`: validate, embed `title + description` (the vector supplied
by the embedding adapter is `vec`), then insert.  A validation failure
propagates and nothing is inserted. -/
def add_issue (vec : PyVal) (tbl : List Dict) (d : Dict) : Except String (List Dict) :=
  match validate_issue d with
  | Except.error e => Except.error e
  | Except.ok _ => Except.ok (tbl ++ [dictSet d "vector" vec])

/-! ### `validate_schedule`, `add_schedule`, `get_schedule`,
`update_schedule` -/
def scheduleRequiredFields : List String :=
  ["id", "issue_id", "request", "action", "status", "occurrences", "created_at",
   "updated_at"]

def missingScheduleFields (d : Dict) : List String :=
  scheduleRequiredFields.filter (fun f => !dictHas d f)

/-- Model of `validate_schedule` (defined in schemas.py; the worker never calls it). -/
def validate_schedule (d : Dict) : Except String Unit :=
  if missingScheduleFields d ≠ [] then
    Except.error ("Missing required fields: " ++ joinComma (missingScheduleFields d))
  else if !(pyValEqStr (dictLookup d "status") "active" ||
      pyValEqStr (dictLookup d "status") "completed" ||
      pyValEqStr (dictLookup d "status") "cancelled") then
    Except.error "Field 'status' must be 'active', 'completed', or 'cancelled'"
  else Except.ok ()

/-- Model of `add_schedule`: default the id and the created/updated timestamps when
absent, then insert.  No validation is performed (timestamp-string parsing
is elided; timestamps are millisecond integers here). -/
def add_schedule (now : Int) (tbl : List Dict) (d : Dict) : List Dict :=
  tbl ++ [(fun d2 =>
    if dictHas d2 "updated_at" then d2 else dictSet d2 "updated_at" (PyVal.intv now))
    ((fun d1 =>
      if dictHas d1 "created_at" then d1 else dictSet d1 "created_at" (PyVal.intv now))
      (if dictHas d "id" then d
       else dictSet d "id" (PyVal.strv ("schedule-" ++ toString now))))]

/-- Model of `get_schedule`: first row with the given id (timestamp rendering
elided), `none` when absent. -/
def get_schedule (tbl : List Dict) (sid : String) : Option Dict :=
  tbl.find? (fun d => pyValEqStr (dictLookup d "id") sid)

/-- Model of `update_schedule`: fetch the existing row (report `False` when absent),
merge the update dict over it, re-stamp `updated_at`, then rewrite the table
without the old row and with the merged row appended. -/
def update_schedule (now : Int) (tbl : List Dict) (sid : String) (updates : Dict) :
    Bool × List Dict :=
  match get_schedule tbl sid with
  | none => (false, tbl)
  | some existing =>
    (true, (tbl.filter (fun d => !(pyValEqStr (dictLookup d "id") sid))) ++
      [dictSet (dictMerge existing updates) "updated_at" (PyVal.intv now)])

/-! ## C6: the validation gate before insertion
-/
/-- A schedule dict missing all required fields but `id`. -/
def c6badSchedule : Dict := [("id", PyVal.strv "s1")]

/-! ## C8: schedule status transitions
-/
/-- A schedule row whose status is `completed`. -/
def c8row : Dict :=
  [("id", PyVal.strv "s1"), ("issue_id", PyVal.strv "i1"),
   ("request", PyVal.strv "r"), ("action", PyVal.strv "reminder"),
   ("status", PyVal.strv "completed"), ("occurrences", PyVal.intv 0),
   ("created_at", PyVal.intv 0), ("updated_at", PyVal.intv 0)]

/-! ## Lemmas about `listMin`, `listMax` and `scores` -/
theorem foldl_min_le_init (ds : List ℚ) (a : ℚ) : ds.foldl min a ≤ a := by
  induction ds generalizing a with
  | nil => exact le_refl a
  | cons d ds ih => exact le_trans (ih (min a d)) (min_le_left a d)

theorem foldl_min_le_mem (ds : List ℚ) (a d : ℚ) (h : d ∈ ds) : ds.foldl min a ≤ d := by
  induction ds generalizing a with
  | nil => cases h
  | cons x xs ih =>
    rcases List.mem_cons.mp h with h1 | h2
    · subst h1
      exact le_trans (foldl_min_le_init xs (min a d)) (min_le_right a d)
    · exact ih _ h2

theorem init_le_foldl_max (ds : List ℚ) (a : ℚ) : a ≤ ds.foldl max a := by
  induction ds generalizing a with
  | nil => exact le_refl a
  | cons d ds ih => exact le_trans (le_max_left a d) (ih (max a d))

theorem mem_le_foldl_max (ds : List ℚ) (a d : ℚ) (h : d ∈ ds) : d ≤ ds.foldl max a := by
  induction ds generalizing a with
  | nil => cases h
  | cons x xs ih =>
    rcases List.mem_cons.mp h with h1 | h2
    · subst h1
      exact le_trans (le_max_right a d) (init_le_foldl_max xs (max a d))
    · exact ih _ h2

theorem listMin_le_mem (ds : List ℚ) (d : ℚ) (h : d ∈ ds) : listMin ds ≤ d := by
  cases ds with
  | nil => cases h
  | cons x xs =>
    rcases List.mem_cons.mp h with h1 | h2
    · subst h1; exact foldl_min_le_init xs d
    · exact foldl_min_le_mem xs x d h2

theorem mem_le_listMax (ds : List ℚ) (d : ℚ) (h : d ∈ ds) : d ≤ listMax ds := by
  cases ds with
  | nil => cases h
  | cons x xs =>
    rcases List.mem_cons.mp h with h1 | h2
    · subst h1; exact init_le_foldl_max xs d
    · exact mem_le_foldl_max xs x d h2

theorem foldl_min_mem (ds : List ℚ) (a : ℚ) : ds.foldl min a = a ∨ ds.foldl min a ∈ ds := by
  induction ds generalizing a with
  | nil => left; rfl
  | cons x xs ih =>
    rcases ih (min a x) with h | h
    · rcases min_cases a x with ⟨h1, _⟩ | ⟨h1, _⟩
      · left; rw [List.foldl_cons, h, h1]
      · right; rw [List.foldl_cons, h, h1]; exact List.mem_cons_self _ _
    · right; exact List.mem_cons_of_mem _ h

theorem foldl_max_mem (ds : List ℚ) (a : ℚ) : ds.foldl max a = a ∨ ds.foldl max a ∈ ds := by
  induction ds generalizing a with
  | nil => left; rfl
  | cons x xs ih =>
    rcases ih (max a x) with h | h
    · rcases max_cases a x with ⟨h1, _⟩ | ⟨h1, _⟩
      · left; rw [List.foldl_cons, h, h1]
      · right; rw [List.foldl_cons, h, h1]; exact List.mem_cons_self _ _
    · right; exact List.mem_cons_of_mem _ h

theorem listMin_mem (ds : List ℚ) (h : ds ≠ []) : listMin ds ∈ ds := by
  cases ds with
  | nil => exact absurd rfl h
  | cons x xs =>
    rcases foldl_min_mem xs x with h1 | h1
    · rw [listMin, h1]; exact List.mem_cons_self _ _
    · exact List.mem_cons_of_mem _ h1

theorem listMax_mem (ds : List ℚ) (h : ds ≠ []) : listMax ds ∈ ds := by
  cases ds with
  | nil => exact absurd rfl h
  | cons x xs =>
    rcases foldl_max_mem xs x with h1 | h1
    · rw [listMax, h1]; exact List.mem_cons_self _ _
    · exact List.mem_cons_of_mem _ h1

theorem scores_length (ds : List ℚ) : (scores ds).length = ds.length := by
  unfold scores
  split
  · rename_i h
    rw [List.isEmpty_iff.mp h]
  · split <;> simp

theorem zip_self_map (f : ℚ → ℚ) :
    ∀ ds : List ℚ, ds.zip (ds.map f) = ds.map (fun d => (d, f d))
  | [] => rfl
  | d :: ds => by
    simp only [List.map_cons, List.zip_cons_cons, zip_self_map f ds]

/-- On a nonempty distance column the normalized score of every element lies
in `[0, 1]`. -/
theorem scores_mem_bounds (ds : List ℚ) (s : ℚ) (hs : s ∈ scores ds) :
    0 ≤ s ∧ s ≤ 1 := by
  unfold scores at hs
  split at hs
  · cases hs
  · rename_i hne
    split at hs
    · rename_i hlt
      obtain ⟨d, hd, rfl⟩ := List.mem_map.mp hs
      have hm : listMin ds ≤ d := listMin_le_mem ds d hd
      have hM : d ≤ listMax ds := mem_le_listMax ds d hd
      have hpos : (0 : ℚ) < listMax ds - listMin ds := sub_pos.mpr hlt
      constructor
      · have h1 : (d - listMin ds) / (listMax ds - listMin ds) ≤ 1 := by
          rw [div_le_one hpos]
          linarith
        linarith
      · have h0 : 0 ≤ (d - listMin ds) / (listMax ds - listMin ds) :=
          div_nonneg (by linarith) (le_of_lt hpos)
        linarith
    · obtain ⟨d, hd, rfl⟩ := List.mem_map.mp hs
      constructor <;> norm_num

/-- When every distance equals every other, `scores` assigns `1` everywhere. -/
theorem scores_all_eq (ds : List ℚ) (h : ∀ d ∈ ds, ∀ d' ∈ ds, d = d') :
    ∀ s ∈ scores ds, s = 1 := by
  intro s hs
  unfold scores at hs
  split at hs
  · cases hs
  · rename_i hne
    split at hs
    · rename_i hlt
      have hnil : ds ≠ [] := fun hc => by rw [hc] at hne; exact hne rfl
      have := h (listMin ds) (listMin_mem ds hnil) (listMax ds) (listMax_mem ds hnil)
      exact absurd hlt (by rw [this]; exact lt_irrefl _)
    · obtain ⟨d, _, rfl⟩ := List.mem_map.mp hs
      rfl

/-- Each zipped pair of `ds` with its score column has the form `(d, f d)`
for the branch-appropriate scoring function. -/
theorem zip_scores_cases (ds : List ℚ) (x : ℚ × ℚ) (hx : x ∈ ds.zip (scores ds)) :
    x.1 ∈ ds ∧
      ((listMin ds < listMax ds ∧
          x.2 = 1 - (x.1 - listMin ds) / (listMax ds - listMin ds)) ∨
        (¬listMin ds < listMax ds ∧ x.2 = 1)) := by
  unfold scores at hx
  split at hx
  · rename_i h
    rw [List.isEmpty_iff.mp h] at hx
    cases hx
  · split at hx
    · rename_i hlt
      rw [zip_self_map] at hx
      obtain ⟨d, hd, hde⟩ := List.mem_map.mp hx
      rw [← hde]
      exact ⟨hd, Or.inl ⟨hlt, rfl⟩⟩
    · rename_i hge
      rw [zip_self_map] at hx
      obtain ⟨d, hd, hde⟩ := List.mem_map.mp hx
      rw [← hde]
      exact ⟨hd, Or.inr ⟨hge, rfl⟩⟩

/-- The scoring function is antitone in the distance: a pair with the smaller
distance never gets the smaller score. -/
theorem scores_antitone (ds : List ℚ) (x y : ℚ × ℚ)
    (hx : x ∈ ds.zip (scores ds)) (hy : y ∈ ds.zip (scores ds))
    (hxy : x.1 ≤ y.1) : y.2 ≤ x.2 := by
  obtain ⟨hx1, hx2⟩ := zip_scores_cases ds x hx
  obtain ⟨hy1, hy2⟩ := zip_scores_cases ds y hy
  rcases hx2 with ⟨hlt, hxe⟩ | ⟨hge, hxe⟩
  · rcases hy2 with ⟨_, hye⟩ | ⟨hge, _⟩
    · rw [hxe, hye]
      have hpos : (0 : ℚ) < listMax ds - listMin ds := sub_pos.mpr hlt
      have := (div_le_div_iff_of_pos_right hpos).mpr
        (by linarith : x.1 - listMin ds ≤ y.1 - listMin ds)
      linarith
    · exact absurd hlt hge
  · rcases hy2 with ⟨hlt, _⟩ | ⟨_, hye⟩
    · exact absurd hlt hge
    · rw [hxe, hye]

/-! ## C1: vector-branch scoring of `search_pond`
-/
/-- Claim C1: on the vector branch of `search_pond`, when the retrieved
post-filter set reports distances, the score column is exactly
`1 - (d - min)/(max - min)` when `max > min` and `1.0` everywhere when all
distances are equal; every score lies in `[0, 1]`; a row carrying the minimum
distance carries the maximum score; a single row scores `1.0`; and an empty
result has an empty score column (and correspondingly an empty `data` page in
`searchPond`). -/
theorem scores_spec (ds : List ℚ) :
    scores [] = [] ∧
    (∀ d : ℚ, scores [d] = [1]) ∧
    (scores ds).length = ds.length ∧
    (listMin ds < listMax ds →
      scores ds = ds.map (fun d => 1 - (d - listMin ds) / (listMax ds - listMin ds))) ∧
    (∀ s ∈ scores ds, 0 ≤ s ∧ s ≤ 1) ∧
    ((∀ d ∈ ds, ∀ d' ∈ ds, d = d') → ∀ s ∈ scores ds, s = 1) ∧
    (∀ x ∈ ds.zip (scores ds), x.1 = listMin ds →
      ∀ y ∈ ds.zip (scores ds), y.2 ≤ x.2) := by
  refine ⟨rfl, ?_, scores_length ds, ?_, fun s hs => scores_mem_bounds ds s hs,
    scores_all_eq ds, ?_⟩
  · intro d
    have : ¬ listMin [d] < listMax [d] := by
      simp [listMin, listMax]
    simp [scores, this]
  · intro hlt
    unfold scores
    have hne : ds ≠ [] := by
      intro hc
      rw [hc] at hlt
      simp [listMin, listMax] at hlt
    simp only [List.isEmpty_iff, hne, if_false, hlt, if_true]
  · intro x hx hmin y hy
    refine scores_antitone ds x y hx hy ?_
    rw [hmin]
    exact listMin_le_mem ds y.1 (zip_scores_cases ds y hy).1

theorem listMin_135 : listMin [(1 : ℚ), 3, 5] = 1 := by
  norm_num [listMin, min_def]

theorem listMax_135 : listMax [(1 : ℚ), 3, 5] = 5 := by
  norm_num [listMax, max_def]

theorem scores_135 : scores [(1 : ℚ), 3, 5] = [1, 1/2, 0] := by
  rw [scores, if_neg (by simp), if_pos (by rw [listMin_135, listMax_135]; norm_num)]
  rw [listMin_135, listMax_135]
  norm_num

/-- Witness for C1: a concrete three-row distance column: scores are
`[1, 1/2, 0]`, all in `[0,1]`, and the minimum-distance head row carries
the maximum score. -/
theorem scores_spec_witness :
    (scores [(1 : ℚ), 3, 5] = [1, 1/2, 0]) ∧
    (∀ s ∈ scores [(1 : ℚ), 3, 5], 0 ≤ s ∧ s ≤ 1) ∧
    (∀ y ∈ List.zip [(1 : ℚ), 3, 5] (scores [(1 : ℚ), 3, 5]),
      y.2 ≤ ((1 : ℚ), (1 : ℚ)).2) := by
  refine ⟨scores_135, (scores_spec [(1 : ℚ), 3, 5]).2.2.2.2.1, ?_⟩
  exact (scores_spec [(1 : ℚ), 3, 5]).2.2.2.2.2.2 ((1 : ℚ), (1 : ℚ))
    (by rw [scores_135]; simp) (by rw [listMin_135])

/-! ## C2: pagination metadata of `search_pond`
-/
theorem mkPage_spec (l o : Nat) (xs : List (PondRow × Option ℚ)) :
    (mkPage l o xs).limit = l ∧ (mkPage l o xs).offset = o ∧
    (mkPage l o xs).hasMore = decide (o + l < (mkPage l o xs).total) ∧
    (mkPage l o xs).data.length = min l ((mkPage l o xs).total - o) ∧
    (mkPage l o xs).total = xs.length ∧
    (mkPage l o xs).data = (xs.drop o).take l := by
  refine ⟨rfl, rfl, rfl, ?_, rfl, rfl⟩
  simp [mkPage]

/-- Every exit of `search_pond` is `mkPage` applied to the branch's
pre-pagination row set, with the caller's limit and offset. -/
theorem searchPond_is_page (p : SearchParams) (mb : Bool) (table : List PondRow)
    (ranked : List (PondRow × ℚ)) (vf sf : Bool) :
    ∃ xs, searchPond p mb table ranked vf sf = mkPage p.limit p.offset xs := by
  unfold searchPond finishText finishVector
  split
  · split
    · exact ⟨_, rfl⟩
    · exact ⟨_, rfl⟩
  · split
    · exact ⟨_, rfl⟩
    · exact ⟨_, rfl⟩

/-- Claim C2: for every `search_pond` call: `hasMore = (offset + limit <
total)`, the returned page is the half-open slice `[offset, offset+limit)`
of the pre-pagination set, `total` is the size of that set, and the page
length is `min limit (total - offset)` (natural subtraction renders
`max 0 (total - offset)`). -/
theorem searchPond_pagination (p : SearchParams) (mb : Bool) (table : List PondRow)
    (ranked : List (PondRow × ℚ)) (vf sf : Bool) :
    (searchPond p mb table ranked vf sf).limit = p.limit ∧
    (searchPond p mb table ranked vf sf).offset = p.offset ∧
    (searchPond p mb table ranked vf sf).hasMore
      = decide (p.offset + p.limit < (searchPond p mb table ranked vf sf).total) ∧
    (searchPond p mb table ranked vf sf).data.length
      = min p.limit ((searchPond p mb table ranked vf sf).total - p.offset) ∧
    ∃ retrieved : List (PondRow × Option ℚ),
      (searchPond p mb table ranked vf sf).total = retrieved.length ∧
      (searchPond p mb table ranked vf sf).data = (retrieved.drop p.offset).take p.limit := by
  obtain ⟨xs, hxs⟩ := searchPond_is_page p mb table ranked vf sf
  rw [hxs]
  obtain ⟨h1, h2, h3, h4, h5, h6⟩ := mkPage_spec p.limit p.offset xs
  exact ⟨h1, h2, h3, h4, xs, h5, h6⟩

/-! ## Ordering lemmas -/
theorem zipWith_pair_map_fst :
    ∀ (rds : List (PondRow × ℚ)) (ss : List ℚ), ss.length = rds.length →
      (List.zipWith (fun rd s => (rd.1, some s)) rds ss).map Prod.fst = rds.map Prod.fst
  | [], _, _ => rfl
  | _ :: _, [], h => by simp at h
  | rd :: rds, s :: ss, h => by
    simp only [List.zipWith_cons_cons, List.map_cons]
    rw [zipWith_pair_map_fst rds ss (by simpa using h)]

/-- Attaching the score column does not reorder or drop rows. -/
theorem attachScores_map_fst (rds : List (PondRow × ℚ)) :
    (attachScores rds).map Prod.fst = rds.map Prod.fst :=
  zipWith_pair_map_fst rds _ (by rw [scores_length, List.length_map])

theorem attachScores_length (rds : List (PondRow × ℚ)) :
    (attachScores rds).length = rds.length := by
  simp [attachScores, List.length_zipWith, scores_length]

theorem sortTsDesc_length (rows : List PondRow) :
    (sortTsDesc rows).length = rows.length :=
  (List.perm_insertionSort tsDescRow rows).length_eq

/-- A slice is a sublist of the sliced list. -/
theorem take_drop_sublist (o l : Nat) (xs : List α) :
    List.Sublist ((xs.drop o).take l) xs :=
  (List.take_sublist _ _).trans (List.drop_sublist _ _)

theorem finishText_total (l o : Nat) (rows : List PondRow) :
    (finishText l o rows).total = rows.length := by
  show ((sortTsDesc rows).map _).length = rows.length
  rw [List.length_map, sortTsDesc_length]

theorem finishVector_total (l o : Nat) (rds : List (PondRow × ℚ)) :
    (finishVector l o rds).total = rds.length := by
  show (attachScores rds).length = rds.length
  exact attachScores_length rds

/-- The text-branch page is sorted by timestamp, most recent first. -/
theorem finishText_sorted (l o : Nat) (rows : List PondRow) :
    List.Sorted tsDescS (finishText l o rows).data := by
  have hs : List.Sorted tsDescRow (sortTsDesc rows) :=
    List.sorted_insertionSort tsDescRow rows
  have hmap : List.Sorted tsDescS
      ((sortTsDesc rows).map (fun r => (r, (none : Option ℚ)))) := by
    rw [List.Sorted, List.pairwise_map]
    exact hs
  exact List.Pairwise.sublist (take_drop_sublist _ _ _) hmap

/-! ## C5: ordering of `search_pond` results
-/
/-- Claim C5: the vector branch of `search_pond` returns rows in the store's
similarity order — the page's row sequence is exactly a slice of the
retrieved (filtered, 2000-capped) store ordering, with no re-sort after
scoring — and the score is an antitone (hence rank-monotone) transform of
distance; every text-branch page (plain scan, model-unloaded scan, and the
similarity-failure fallback) is sorted by timestamp descending. -/
theorem searchPond_ordering (p : SearchParams) (mb : Bool) (table : List PondRow)
    (ranked : List (PondRow × ℚ)) (vf sf : Bool) :
    (p.q ≠ "" → mb = true → vf = false →
      (searchPond p mb table ranked vf sf).data.map Prod.fst =
        (((((ranked.filter (fun rd => matchesWhere p rd.1)).take 2000).map
          Prod.fst).drop p.offset).take p.limit)) ∧
    (∀ ds : List ℚ, ∀ x ∈ ds.zip (scores ds), ∀ y ∈ ds.zip (scores ds),
      x.1 ≤ y.1 → y.2 ≤ x.2) ∧
    ((p.q = "" ∨ mb = false ∨ vf = true) →
      List.Sorted tsDescS (searchPond p mb table ranked vf sf).data) := by
  refine ⟨?_, fun ds x hx y hy hxy => scores_antitone ds x y hx hy hxy, ?_⟩
  · intro hq hmb hvf
    unfold searchPond
    rw [if_pos ⟨hq, hmb⟩, hvf, if_neg Bool.false_ne_true]
    show ((((attachScores ((ranked.filter
        (fun rd => matchesWhere p rd.1)).take 2000)).drop p.offset).take p.limit).map
          Prod.fst) = _
    rw [List.map_take, List.map_drop, attachScores_map_fst]
  · intro hdisj
    unfold searchPond
    by_cases hcond : p.q ≠ "" ∧ mb = true
    · rw [if_pos hcond]
      have hvf : vf = true := by
        rcases hdisj with h | h | h
        · exact absurd h hcond.1
        · rw [hcond.2] at h; cases h
        · exact h
      rw [hvf, if_pos rfl]
      exact finishText_sorted _ _ _
    · rw [if_neg hcond]
      cases sf with
      | true => rw [if_pos rfl]; exact finishText_sorted _ _ _
      | false => rw [if_neg Bool.false_ne_true]; exact finishText_sorted _ _ _

/-- Witness for C5: a vector-branch call on an empty store preserves the
(empty) store order, and a text-branch call yields a timestamp-sorted page. -/
theorem searchPond_ordering_witness :
    ((searchPond ⟨"a", none, none, none, none, 20, 0⟩ true [] [] false false).data.map
        Prod.fst =
      ((((([] : List (PondRow × ℚ)).filter
        (fun rd => matchesWhere ⟨"a", none, none, none, none, 20, 0⟩ rd.1)).take
          2000).map Prod.fst).drop 0).take 20) ∧
    List.Sorted tsDescS
      (searchPond ⟨"", none, none, none, none, 20, 0⟩ true [] [] false false).data :=
  ⟨(searchPond_ordering ⟨"a", none, none, none, none, 20, 0⟩ true [] [] false false).1
      (by decide) rfl rfl,
    (searchPond_ordering ⟨"", none, none, none, none, 20, 0⟩ true [] [] false false).2.2
      (Or.inl rfl)⟩

/-- Counterexample for C10: a `search_pond` call that never touches the
similarity scan (empty query, model unloaded) but whose plain filtered scan
raises, so the bare `except:` fallback runs `table.to_pandas()` with no
2000-row cap: on a 2001-row table the reported total is 2001 > 2000, refuting
the claim that every non-similarity-fallback call retrieves at most 2000
rows. -/
theorem searchPond_over2000 :
    2000 < (searchPond ⟨"", none, none, none, none, 20, 0⟩ false bigTable [] false
      true).total := by
  unfold searchPond
  rw [if_neg (by simp), if_pos rfl, finishText_total]
  simp [sourceFilter, optTruthy, bigTable]

/-- Amended claim C10: every `search_pond` call that takes neither exception
fallback — neither the similarity-scan fallback nor the filtered-scan
fallback — retrieves at most 2000 rows (`limit(2000)` on both the vector
branch and the filtered-scan text branch), so both the reported total and
the page length are at most 2000. -/
theorem mkPage_data_le_total (l o : Nat) (xs : List (PondRow × Option ℚ)) :
    (mkPage l o xs).data.length ≤ (mkPage l o xs).total :=
  List.Sublist.length_le (take_drop_sublist o l xs)

theorem searchPond_data_le_total (p : SearchParams) (mb : Bool)
    (table : List PondRow) (ranked : List (PondRow × ℚ)) (vf sf : Bool) :
    (searchPond p mb table ranked vf sf).data.length
      ≤ (searchPond p mb table ranked vf sf).total := by
  obtain ⟨xs, hxs⟩ := searchPond_is_page p mb table ranked vf sf
  rw [hxs]
  exact mkPage_data_le_total _ _ xs

theorem searchPond_cap2000 (p : SearchParams) (mb : Bool) (table : List PondRow)
    (ranked : List (PondRow × ℚ)) :
    (searchPond p mb table ranked false false).total ≤ 2000 ∧
    (searchPond p mb table ranked false false).data.length ≤ 2000 := by
  have htot : (searchPond p mb table ranked false false).total ≤ 2000 := by
    unfold searchPond
    simp only [Bool.false_eq_true, if_false]
    split
    · rw [finishVector_total]
      exact List.length_take_le _ _
    · rw [finishText_total]
      exact List.length_take_le _ _
  exact ⟨htot, le_trans (searchPond_data_le_total p mb table ranked false false) htot⟩

/-- Counterexample for C3: scenario D run against `search_pond`: 5 rows, a
nonempty query that case-insensitively substring-matches exactly 2 of them,
and a failing similarity scan.  The fallback returns all 5 rows, not the 2
matching ones: `search_pond`'s failure fallback performs no text-substring
filtering. -/
theorem searchPond_fallback_counterexample :
    (c3table.filter (fun r => strContainsCI r.content "report")).length = 2 ∧
    (searchPond c3params true c3table [] true false).data.length = 5 := by
  constructor
  · decide
  · decide

/-- Amended claim C3: when the similarity scan fails no error is surfaced,
but the text-substring fallback belongs to `search_issues` only: there the
fallback returns exactly the rows whose `title` case-insensitively
substring-matches the query.  `search_pond`'s similarity-failure fallback
instead returns the whole table filtered only by the source parameter
(timestamp-sorted and paginated), with no text matching. -/
theorem text_fallback_amended (table : List IssueRow) (q : String) (lim : Nat)
    (hq : q ≠ "") :
    search_issues q true none table lim = text_search table q ∧
    (∀ r : IssueRow, r ∈ text_search table q ↔
      r ∈ table ∧ strContainsCI r.title q = true) ∧
    (∀ (p : SearchParams) (tbl : List PondRow) (ranked : List (PondRow × ℚ))
        (sf : Bool), p.q ≠ "" →
      searchPond p true tbl ranked true sf =
        finishText p.limit p.offset (sourceFilter p.source tbl)) := by
  refine ⟨?_, ?_, ?_⟩
  · unfold search_issues
    rw [if_pos ⟨hq, rfl⟩]
  · intro r
    unfold text_search
    rw [if_pos hq]
    exact List.mem_filter
  · intro p tbl ranked sf hp
    unfold searchPond
    rw [if_pos ⟨hp, rfl⟩, if_pos rfl]

/-- Witness for the amended claim C3: the fallback equations instantiated on concrete
data: two of five issue rows match "report" and the fallback returns exactly
those two. -/
theorem text_fallback_amended_witness :
    search_issues "report" true none
        [⟨"1", "alpha report", "", "open", []⟩, ⟨"2", "weekly Report summary", "", "open", []⟩,
         ⟨"3", "groceries", "", "open", []⟩, ⟨"4", "meeting notes", "", "open", []⟩,
         ⟨"5", "random", "", "open", []⟩] 10 =
      text_search
        [⟨"1", "alpha report", "", "open", []⟩, ⟨"2", "weekly Report summary", "", "open", []⟩,
         ⟨"3", "groceries", "", "open", []⟩, ⟨"4", "meeting notes", "", "open", []⟩,
         ⟨"5", "random", "", "open", []⟩] "report" ∧
    text_search
        [⟨"1", "alpha report", "", "open", []⟩, ⟨"2", "weekly Report summary", "", "open", []⟩,
         ⟨"3", "groceries", "", "open", []⟩, ⟨"4", "meeting notes", "", "open", []⟩,
         ⟨"5", "random", "", "open", []⟩] "report" =
      [⟨"1", "alpha report", "", "open", []⟩, ⟨"2", "weekly Report summary", "", "open", []⟩] :=
  ⟨(text_fallback_amended _ "report" 10 (by decide)).1, by decide⟩

theorem normSq_nonneg (v : List ℝ) : 0 ≤ normSq v := by
  induction v with
  | nil => exact le_refl 0
  | cons x xs ih =>
    have : normSq (x :: xs) = x * x + normSq xs := rfl
    rw [this]
    exact add_nonneg (mul_self_nonneg x) ih

theorem normSq_map_div (v : List ℝ) (c : ℝ) :
    normSq (v.map (fun x => x / c)) = normSq v / (c * c) := by
  induction v with
  | nil => simp [normSq]
  | cons x xs ih =>
    have h1 : normSq ((x :: xs).map (fun x => x / c))
        = (x / c) * (x / c) + normSq (xs.map (fun x => x / c)) := rfl
    have h2 : normSq (x :: xs) = x * x + normSq xs := rfl
    rw [h1, h2, ih, div_mul_div_comm, add_div]

/-- Claim C4: the function `_adjust_dimension` returns the vector unchanged when the
requested width equals the native width; truncates to the first `R`
components rescaled to unit L2 norm (left unnormalized exactly when the
truncated prefix has zero norm) when `R < N`; and zero-pads on the right
to width `R` when `R > N`. -/
theorem adjust_dimension_spec (v : List ℝ) (R : Nat) :
    (R = v.length → adjust_dimension v R = v) ∧
    (R < v.length →
      (adjust_dimension v R).length = R ∧
      (0 < normSq (v.take R) → normSq (adjust_dimension v R) = 1) ∧
      (normSq (v.take R) = 0 → adjust_dimension v R = v.take R)) ∧
    (v.length < R →
      (adjust_dimension v R).length = R ∧
      (adjust_dimension v R).take v.length = v ∧
      (adjust_dimension v R).drop v.length = List.replicate (R - v.length) (0 : ℝ)) := by
  refine ⟨?_, ?_, ?_⟩
  · intro h
    unfold adjust_dimension
    rw [if_pos h.symm]
  · intro h
    have hne : v.length ≠ R := by omega
    have heq : adjust_dimension v R =
        if 0 < Real.sqrt (normSq (v.take R)) then
          (v.take R).map (fun x => x / Real.sqrt (normSq (v.take R)))
        else v.take R := by
      unfold adjust_dimension
      rw [if_neg hne, if_pos h]
    refine ⟨?_, ?_, ?_⟩
    · rw [heq]
      split
      · rw [List.length_map, List.length_take]
        omega
      · rw [List.length_take]
        omega
    · intro hpos
      have hsq : 0 < Real.sqrt (normSq (v.take R)) := Real.sqrt_pos.mpr hpos
      rw [heq, if_pos hsq, normSq_map_div,
        Real.mul_self_sqrt (normSq_nonneg (v.take R))]
      exact div_self (ne_of_gt hpos)
    · intro hzero
      have : ¬ 0 < Real.sqrt (normSq (v.take R)) := by
        rw [hzero, Real.sqrt_zero]
        exact lt_irrefl 0
      rw [heq, if_neg this]
  · intro h
    have hne : v.length ≠ R := by omega
    have hnlt : ¬ R < v.length := by omega
    have heq : adjust_dimension v R = v ++ List.replicate (R - v.length) (0 : ℝ) := by
      unfold adjust_dimension
      rw [if_neg hne, if_neg hnlt]
    refine ⟨?_, ?_, ?_⟩
    · rw [heq, List.length_append, List.length_replicate]
      omega
    · rw [heq, List.take_left]
    · rw [heq, List.drop_left]

/-- Witness for C4: native vector `[3, 4, 12]`.  Truncating to 2 components
gives a unit-norm vector; the identity case and the padding case are checked
at widths 3 and 5. -/
theorem adjust_dimension_spec_witness :
    adjust_dimension [(3 : ℝ), 4, 12] 3 = [(3 : ℝ), 4, 12] ∧
    normSq (adjust_dimension [(3 : ℝ), 4, 12] 2) = 1 ∧
    (adjust_dimension [(3 : ℝ), 4, 12] 5).drop 3 = List.replicate 2 (0 : ℝ) :=
  ⟨(adjust_dimension_spec [(3 : ℝ), 4, 12] 3).1 rfl,
    ((adjust_dimension_spec [(3 : ℝ), 4, 12] 2).2.1 (by norm_num)).2.1
      (by norm_num [normSq]),
    ((adjust_dimension_spec [(3 : ℝ), 4, 12] 5).2.2 (by norm_num)).2.2⟩

/-- Claim C7: calling `update_state(X)` followed by `get_state()` returns `X`, for any
prior table contents; and on a freshly initialized store `get_state()`
returns the empty string (the function is total, modelling "never an
error"). -/
theorem state_roundtrip (rows : List StateRow) (content : String) (now t0 : Int) :
    get_state (update_state now rows content) = content ∧
    get_state (init_state_rows t0) = "" := by
  constructor
  · unfold get_state update_state
    have hnone : (rows.filter (fun r => !(r.id == "main"))).find?
        (fun r => r.id == "main") = none := by
      rw [List.find?_eq_none]
      intro x hx
      have hmem := (List.mem_filter.mp hx).2
      intro hx2
      rw [hx2] at hmem
      cases hmem
    rw [List.find?_append, hnone]
    rfl
  · rfl

/-- Claim C9: a malformed line produces no response and the loop continues
with the remaining lines; a well-formed request with an unknown method
yields an error envelope with the fixed code `-32603` and the
`Unknown method` message — and the loop continues — rather than crashing
the worker (the loop is total and emits exactly the responses of the
well-formed lines). -/
theorem rpc_dispatch_spec (exec : String → Except String Unit)
    (rest : List (Option Request)) (r : Request) (h : r.method ∉ knownMethods) :
    (∀ ls, runLoop exec (none :: ls) = runLoop exec ls) ∧
    handle_request exec r
      = Response.err (-32603) ("Unknown method: " ++ r.method) r.id ∧
    runLoop exec (some r :: rest)
      = Response.err (-32603) ("Unknown method: " ++ r.method) r.id
          :: runLoop exec rest := by
  have h2 : handle_request exec r
      = Response.err (-32603) ("Unknown method: " ++ r.method) r.id := by
    unfold handle_request
    rw [if_neg h]
  refine ⟨fun ls => rfl, h2, ?_⟩
  show handle_request exec r :: runLoop exec rest = _
  rw [h2]

/-- Witness for C9: the unknown method `"nope"` yields the fixed error
envelope. -/
theorem rpc_dispatch_spec_witness :
    handle_request (fun _ => Except.ok ()) ⟨"nope", some 7⟩
      = Response.err (-32603) ("Unknown method: " ++ "nope") (some 7) :=
  (rpc_dispatch_spec (fun _ => Except.ok ()) [] ⟨"nope", some 7⟩ (by decide)).2.1

/-! ### Dict lemmas -/
theorem dictLookup_cons (kv : String × PyVal) (rest : Dict) (k : String) :
    dictLookup (kv :: rest) k =
      if kv.1 == k then some kv.2 else dictLookup rest k := by
  by_cases h : kv.1 == k <;> simp [dictLookup, List.find?_cons, h]

theorem dictLookup_map_set (d : Dict) (k : String) (v : PyVal) :
    dictLookup (d.map (fun kv => if kv.1 == k then (k, v) else kv)) k
      = if dictHas d k then some v else none := by
  induction d with
  | nil => rfl
  | cons kv rest ih =>
    by_cases hkv : kv.1 == k
    · rw [List.map_cons, if_pos hkv, dictLookup_cons]
      simp only [dictHas, dictLookup_cons, hkv, if_pos]
      simp
    · rw [List.map_cons, if_neg hkv, dictLookup_cons, if_neg hkv, ih]
      simp only [dictHas, dictLookup_cons, if_neg hkv]

theorem dictLookup_append_single (d : Dict) (k : String) (v : PyVal)
    (h : dictHas d k = false) :
    dictLookup (d ++ [(k, v)]) k = some v := by
  rw [dictLookup, List.find?_append]
  have hnone : d.find? (fun kv => kv.1 == k) = none := by
    rw [dictHas, dictLookup] at h
    cases hf : d.find? (fun kv => kv.1 == k) with
    | none => rfl
    | some x => rw [hf] at h; simp at h
  rw [hnone]
  simp [List.find?_cons]

/-- Assignment `d[k] = v` makes `d.get(k)` return `v`. -/
theorem dictLookup_set_self (d : Dict) (k : String) (v : PyVal) :
    dictLookup (dictSet d k v) k = some v := by
  unfold dictSet
  split
  · rename_i h
    rw [dictLookup_map_set, if_pos h]
  · rename_i h
    exact dictLookup_append_single d k v (by simpa using h)

theorem dictLookup_map_set_ne (d : Dict) (k k' : String) (v : PyVal)
    (h : (k == k') = false) :
    dictLookup (d.map (fun kv => if kv.1 == k then (k, v) else kv)) k'
      = dictLookup d k' := by
  induction d with
  | nil => rfl
  | cons kv rest ih =>
    by_cases hkv : kv.1 == k
    · have hk1 : kv.1 = k := by simpa using hkv
      rw [List.map_cons, if_pos hkv, dictLookup_cons, dictLookup_cons, ih,
        if_neg (by simp [h]), if_neg (by rw [hk1]; simp [h])]
    · rw [List.map_cons, if_neg hkv, dictLookup_cons, dictLookup_cons, ih]

theorem dictLookup_append_single_ne (d : Dict) (k k' : String) (v : PyVal)
    (h : (k == k') = false) :
    dictLookup (d ++ [(k, v)]) k' = dictLookup d k' := by
  rw [dictLookup, dictLookup, List.find?_append]
  cases hf : d.find? (fun kv => kv.1 == k') with
  | some x => simp
  | none => simp [List.find?_cons, h]

/-- Assignment `d[k] = v` leaves every other key's value unchanged. -/
theorem dictLookup_set_ne (d : Dict) (k k' : String) (v : PyVal)
    (h : (k == k') = false) :
    dictLookup (dictSet d k v) k' = dictLookup d k' := by
  unfold dictSet
  split
  · exact dictLookup_map_set_ne d k k' v h
  · exact dictLookup_append_single_ne d k k' v h

/-- Counterexample for C6: the handler `add_schedule` performs no validation:
`validate_schedule` (which the worker never calls) rejects this dict for
missing required fields, yet `add_schedule` inserts it and a subsequent
lookup finds it — refuting the claim that every Schedule creation passes a
required-field gate with no partial writes. -/
theorem schedule_no_gate_counterexample :
    exceptOk (validate_schedule c6badSchedule) = false ∧
    (add_schedule 0 [] c6badSchedule).length = 1 ∧
    (get_schedule (add_schedule 0 [] c6badSchedule) "s1").isSome = true :=
  ⟨rfl, rfl, rfl⟩

/-- Amended claim C6: issue creation does pass the gate: with required
fields missing, `add_issue` fails with a `Missing required fields` message
listing every missing field (the missing list is exactly the required
fields absent from the dict) and inserts nothing.  Schedule creation,
however, performs no validation: `add_schedule` always inserts its row. -/
theorem validation_gate_amended (vec : PyVal) (tbl : List Dict) (d : Dict)
    (hmiss : missingIssueFields d ≠ []) :
    add_issue vec tbl d = Except.error
      ("Missing required fields: " ++ joinComma (missingIssueFields d)) ∧
    (∀ f, f ∈ missingIssueFields d ↔ f ∈ issueRequiredFields ∧ dictHas d f = false) ∧
    (∀ (now : Int) (tbl' : List Dict) (d' : Dict),
      (add_schedule now tbl' d').length = tbl'.length + 1) := by
  refine ⟨?_, ?_, ?_⟩
  · unfold add_issue validate_issue
    rw [if_pos hmiss]
  · intro f
    unfold missingIssueFields
    rw [List.mem_filter]
    simp
  · intro now tbl' d'
    unfold add_schedule
    rw [List.length_append]
    rfl

/-- Witness for the amended claim C6: scenario B — an issue dict missing exactly
`labels` is rejected with a message naming `labels`, and `add_schedule`
still inserts an invalid dict. -/
theorem validation_gate_amended_witness :
    missingIssueFields
        [("id", PyVal.strv "i1"), ("title", PyVal.strv "t"),
         ("description", PyVal.strv "desc"), ("status", PyVal.strv "open"),
         ("updates", PyVal.strv "x"), ("relations", PyVal.strv "x"),
         ("source_input_ids", PyVal.listv [])] = ["labels"] ∧
    add_issue (PyVal.listv []) []
        [("id", PyVal.strv "i1"), ("title", PyVal.strv "t"),
         ("description", PyVal.strv "desc"), ("status", PyVal.strv "open"),
         ("updates", PyVal.strv "x"), ("relations", PyVal.strv "x"),
         ("source_input_ids", PyVal.listv [])]
      = Except.error ("Missing required fields: " ++ joinComma
          (missingIssueFields
            [("id", PyVal.strv "i1"), ("title", PyVal.strv "t"),
             ("description", PyVal.strv "desc"), ("status", PyVal.strv "open"),
             ("updates", PyVal.strv "x"), ("relations", PyVal.strv "x"),
             ("source_input_ids", PyVal.listv [])])) :=
  ⟨rfl, (validation_gate_amended (PyVal.listv []) [] _ (by decide)).1⟩

/-- Counterexample for C8: the handler `update_schedule` happily moves a schedule out
of `completed`: updating the completed row `c8row` with
`status = "active"` succeeds and the rewritten table's row reports status
`active` — refuting the claimed monotone transition invariant. -/
theorem schedule_status_regression_counterexample :
    pyValEqStr (dictLookup c8row "status") "completed" = true ∧
    (update_schedule 5 [c8row] "s1" [("status", PyVal.strv "active")]).1 = true ∧
    ((update_schedule 5 [c8row] "s1" [("status", PyVal.strv "active")]).2.map
      (fun d => pyValEqStr (dictLookup d "status") "active")) = [true] :=
  ⟨rfl, rfl, rfl⟩

/-- Amended claim C8: the handler `update_schedule` enforces no transition discipline:
for a present row it always reports success, rewrites the table with the
merged row, and the merged row's status is exactly the requested one —
whatever the previous status was (so `active → completed|cancelled` holds
only when callers request it, and transitions out of `completed`/
`cancelled` are equally possible). -/
theorem update_schedule_any_status (now : Int) (tbl : List Dict) (sid : String)
    (s : String) (existing : Dict) (h : get_schedule tbl sid = some existing) :
    (update_schedule now tbl sid [("status", PyVal.strv s)]).1 = true ∧
    (update_schedule now tbl sid [("status", PyVal.strv s)]).2 =
      (tbl.filter (fun d => !(pyValEqStr (dictLookup d "id") sid))) ++
        [dictSet (dictMerge existing [("status", PyVal.strv s)]) "updated_at"
          (PyVal.intv now)] ∧
    dictLookup (dictSet (dictMerge existing [("status", PyVal.strv s)]) "updated_at"
        (PyVal.intv now)) "status" = some (PyVal.strv s) := by
  have hm : dictMerge existing [("status", PyVal.strv s)]
      = dictSet existing "status" (PyVal.strv s) := rfl
  refine ⟨?_, ?_, ?_⟩
  · unfold update_schedule
    rw [h]
  · unfold update_schedule
    rw [h]
  · rw [hm, dictLookup_set_ne _ _ _ _ (by decide), dictLookup_set_self]

/-- Witness for the amended claim C8: the completed row flipped back to `active`. -/
theorem update_schedule_any_status_witness :
    dictLookup (dictSet (dictMerge c8row [("status", PyVal.strv "active")])
        "updated_at" (PyVal.intv 5)) "status" = some (PyVal.strv "active") :=
  (update_schedule_any_status 5 [c8row] "s1" "active" c8row rfl).2.2

end SebasChan
